import Mathlib

/-
Verification of the free-list memory allocator in src/alloc.c.

Modelling conventions (LP64 platform, as the source assumes):
* Addresses and sizes are natural numbers; `SIZE_MAX = 2^64 - 1`.
* `sizeof(free_block)` is 16 (a `size_t` plus a pointer) and `ALIGNMENT` is 16.
* Block headers live in a header store `Mem : Nat -> Block` indexed by the
  block's start address; payload bytes live in a separate byte store.
  A null pointer is `Option.none`; a non-null pointer `p` is `some p`.
* Every loop of the C source walks `next` pointers, so each traversal takes a
  fuel argument; a traversal that would run longer than its fuel yields
  `Option.none` at the outer level ("run not modelled"), never a wrong answer.
-/

def SIZE_MAX : Nat := 2 ^ 64 - 1

def ALIGNMENT : Nat := 16

/-- The value of `sizeof(free_block)` on the LP64 platform the source targets:
a `size_t` size field plus a pointer-sized `next` field. -/
def headerSize : Nat := 16

/-- A `free_block` header: `size` is the usable payload byte count (header
excluded), `next` the free-list link (`none` is C's `NULL`). -/
structure Block where
  size : Nat
  next : Option Nat
deriving DecidableEq

/-- The header store: the `free_block` header located at each address.
Addresses that hold no real header read as junk, exactly as C memory would. -/
def Mem : Type := Nat → Block

/-- Store a header at an address (a C struct assignment through a pointer). -/
def writeBlock (m : Mem) (a : Nat) (b : Block) : Mem :=
  fun x => if x = a then b else m x

/-- The allocator's process-wide state: the header store, the payload byte
store, `HEAD`, `next_fit_ptr` and the current program break. -/
structure AllocState where
  mem : Mem
  data : Nat → Nat
  head : Option Nat
  nextFit : Option Nat
  brk : Nat

/-- Shallow embedding of `split` (alloc.c:21).  Returns `none` when the C
function returns `NULL`, otherwise the updated header store together with the
returned pointer (the original block). -/
def split (m : Mem) (block : Nat) (size : Nat) : Option (Mem × Nat) :=
  if (m block).size < size + headerSize then
    none
  else
    let splitPnt := block + size + headerSize
    let m1 := writeBlock m splitPnt
      { size := (m block).size - size - headerSize, next := (m block).next }
    let m2 := writeBlock m1 block { size := size, next := (m1 block).next }
    some (m2, block)

/-- Loop body of `find_prev` (alloc.c:43): walk the free list from `curr`
looking for a block whose byte range ends exactly at `block`. -/
def findPrevAux (m : Mem) (block : Nat) : Option Nat → Nat → Option (Option Nat)
  | none, _ => some none
  | some _, 0 => none
  | some curr, fuel + 1 =>
      if curr + (m curr).size + headerSize = block then some (some curr)
      else findPrevAux m block (m curr).next fuel

/-- Shallow embedding of `find_prev` (alloc.c:43). -/
def find_prev (fuel : Nat) (m : Mem) (head : Option Nat) (block : Nat) :
    Option (Option Nat) :=
  findPrevAux m block head fuel

/-- Loop body of `find_next` (alloc.c:60): walk the free list from `curr`
looking for a block that starts exactly at `blockEnd`. -/
def findNextAux (m : Mem) (blockEnd : Nat) : Option Nat → Nat → Option (Option Nat)
  | none, _ => some none
  | some _, 0 => none
  | some curr, fuel + 1 =>
      if curr = blockEnd then some (some curr)
      else findNextAux m blockEnd (m curr).next fuel

/-- Shallow embedding of `find_next` (alloc.c:60). -/
def find_next (fuel : Nat) (m : Mem) (head : Option Nat) (block : Nat) :
    Option (Option Nat) :=
  findNextAux m (block + (m block).size + headerSize) head fuel

/-- Shallow embedding of `coalesce` (alloc.c:98).  The global `HEAD` is only
read by `coalesce` (through `find_prev`/`find_next`), never written, so it is
passed as a plain argument; the result is the updated header store and the
returned pointer. -/
def coalesce (fuel : Nat) (m : Mem) (head : Option Nat) (block : Option Nat) :
    Option (Mem × Option Nat) :=
  match block with
  | none => some (m, none)
  | some b0 =>
    match find_prev fuel m head b0, find_next fuel m head b0 with
    | some prevOpt, some nextOpt =>
        let pr : Mem × Nat :=
          match prevOpt with
          | none => (m, b0)
          | some p =>
              if p + (m p).size + headerSize = b0 then
                let mA := writeBlock m p
                  { size := (m p).size + ((m b0).size + headerSize),
                    next := (m p).next }
                let mB := if (mA p).next = some b0 then
                    writeBlock mA p { mA p with next := (m b0).next }
                  else mA
                (mB, p)
              else (m, b0)
        let m1 := pr.1
        let b1 := pr.2
        match nextOpt with
        | none => some (m1, some b1)
        | some nx =>
            if b1 + (m1 b1).size + headerSize = nx then
              let mC := writeBlock m1 b1
                { size := (m1 b1).size + ((m1 nx).size + headerSize),
                  next := (m1 b1).next }
              let mD := writeBlock mC b1 { mC b1 with next := (mC nx).next }
              some (mD, some b1)
            else some (m1, some b1)
    | _, _ => none

/-- Shallow embedding of `do_alloc` (alloc.c:140).  `grant` tells whether the
`sbrk` call succeeds (`sbrk` returns the previous break on success); note that
this helper is never invoked by `tumalloc`, which carries its own inline
`sbrk` path. -/
def do_alloc (fuel : Nat) (grant : Bool) (size : Nat) (s : AllocState) :
    Option (Option Nat × AllocState) :=
  if grant then
    let b := s.brk
    let m1 := writeBlock s.mem b { size := size, next := s.head }
    let s1 : AllocState :=
      { s with mem := m1, head := some b, brk := s.brk + (size + headerSize) }
    match coalesce fuel s1.mem s1.head s1.head with
    | none => none
    | some (m2, ret) => some (some (b + headerSize), { s1 with mem := m2, head := ret })
  else
    some (none, s)

/-- The rounding `size = (size + ALIGNMENT - 1) & ~(ALIGNMENT - 1)` from
alloc.c:173, on 64-bit `size_t` arithmetic. -/
def align16 (size : Nat) : Nat :=
  ((size + (ALIGNMENT - 1)) % 2 ^ 64) &&& (2 ^ 64 - ALIGNMENT)

/-- Where the free-list scan of `tumalloc` starts:
`next_fit_ptr ? next_fit_ptr : HEAD` (alloc.c:176). -/
def scanStart (s : AllocState) : Option Nat :=
  match s.nextFit with
  | some p => some p
  | none => s.head

/-- Result of the free-list scan loop of `tumalloc`: either a block was found
(with the whole resulting allocator state) or the loop fell off the list. -/
inductive MallocStep where
  | hit (payload : Nat) (s : AllocState)
  | miss

/-- The `while (curr != NULL)` loop of `tumalloc` (alloc.c:180), walking
`curr` (with its list predecessor `prev`) until a block of at least `size`
payload bytes is found. -/
def scanLoop (size : Nat) (s : AllocState) :
    Option Nat → Option Nat → Nat → Option MallocStep
  | none, _, _ => some MallocStep.miss
  | some _, _, 0 => none
  | some curr, prev, fuel + 1 =>
      if size ≤ (s.mem curr).size then
        let m1 :=
          if size + headerSize < (s.mem curr).size then
            match split s.mem curr size with
            | some (m2, _) => m2
            | none => s.mem
          else s.mem
        let currNext := (m1 curr).next
        let st :=
          match prev with
          | some p => (writeBlock m1 p { m1 p with next := currNext }, s.head)
          | none => (m1, currNext)
        let nextFit1 :=
          match currNext with
          | some nx => some nx
          | none => st.2
        some (MallocStep.hit (curr + headerSize)
          { s with mem := st.1, head := st.2, nextFit := nextFit1 })
      else
        scanLoop size s (s.mem curr).next (some curr) fuel

/-- Shallow embedding of `tumalloc` (alloc.c:167).  `grant` tells whether the
inline `sbrk` call on the miss path succeeds.  The outer `Option` is the fuel
bound on the scan loop; the inner `Option Nat` is the returned pointer
(`none` is C's `NULL`). -/
def tumalloc (fuel : Nat) (grant : Bool) (size0 : Nat) (s : AllocState) :
    Option (Option Nat × AllocState) :=
  let size := align16 size0
  match scanLoop size s (scanStart s) none fuel with
  | none => none
  | some (MallocStep.hit payload s1) => some (some payload, s1)
  | some MallocStep.miss =>
      if grant then
        let newBlock := s.brk
        let m1 := writeBlock s.mem newBlock { size := size, next := s.head }
        some (some (newBlock + headerSize),
          { s with mem := m1, nextFit := none, brk := s.brk + (size + headerSize) })
      else
        some (none, s)

/-- Outcome of a `tucalloc` call.  `divByZero` marks the run in which the C
expression `SIZE_MAX / size` divides by zero (undefined behavior, in practice
a trap): the source checks `num > SIZE_MAX / size` before ever testing
whether `size` is zero. -/
inductive CallocRes where
  | divByZero
  | ok (ptr : Option Nat) (s : AllocState)

/-- The effect of `memset(ptr, 0, n)` on the payload byte store. -/
def memsetZero (d : Nat → Nat) (ptr n : Nat) : Nat → Nat :=
  fun a => if ptr ≤ a ∧ a < ptr + n then 0 else d a

/-- Shallow embedding of `tucalloc` (alloc.c:239).  For `size ≠ 0` the
translation is literal; for `size = 0` the guard `num > SIZE_MAX / size`
divides by zero, which is undefined behavior in C and is made explicit here
as the `divByZero` outcome. -/
def tucalloc (fuel : Nat) (grant : Bool) (num size : Nat) (s : AllocState) :
    Option CallocRes :=
  if size = 0 then some CallocRes.divByZero
  else if SIZE_MAX / size < num then some (CallocRes.ok none s)
  else
    let total := num * size
    match tumalloc fuel grant total s with
    | none => none
    | some (some ptr, s1) =>
        some (CallocRes.ok (some ptr) { s1 with data := memsetZero s1.data ptr total })
    | some (none, s1) => some (CallocRes.ok none s1)

/-- Shallow embedding of `tufree` (alloc.c:294): the function body is empty,
so the allocator state is returned unchanged. -/
def tufree (_ptr : Option Nat) (s : AllocState) : AllocState := s

/-- The effect of `memcpy(dst, src, n)` on the payload byte store. -/
def memcpyBytes (d : Nat → Nat) (dst src n : Nat) : Nat → Nat :=
  fun a => if dst ≤ a ∧ a < dst + n then d (src + (a - dst)) else d a

/-- Shallow embedding of `turealloc` (alloc.c:269). -/
def turealloc (fuel : Nat) (grant : Bool) (ptr : Option Nat) (newSize : Nat)
    (s : AllocState) : Option (Option Nat × AllocState) :=
  match ptr with
  | none => tumalloc fuel grant newSize s
  | some p =>
      let block := p - headerSize
      if newSize ≤ (s.mem block).size then some (some p, s)
      else
        match tumalloc fuel grant newSize s with
        | none => none
        | some (some np, s1) =>
            let s2 : AllocState :=
              { s1 with data := memcpyBytes s1.data np p (s1.mem block).size }
            some (some np, tufree (some p) s2)
        | some (none, s1) => some (none, s1)

/-- The free list as the list of block addresses reachable from `head`
through `next` links (with a fuel bound on the walk). -/
def freeListAux (m : Mem) : Option Nat → Nat → Option (List Nat)
  | none, _ => some []
  | some _, 0 => none
  | some a, fuel + 1 =>
      match freeListAux m (m a).next fuel with
      | none => none
      | some l => some (a :: l)

/-- A client-visible operation: an `allocate` call (with the outcome of its
potential `sbrk`) or a `release` call. -/
inductive Op where
  | alloc (grant : Bool) (size : Nat)
  | free (p : Option Nat)

/-- One client operation applied to the allocator state. -/
def step (fuel : Nat) (s : AllocState) : Op → AllocState
  | Op.alloc g sz =>
      match tumalloc fuel g sz s with
      | some (_, s1) => s1
      | none => s
  | Op.free p => tufree p s

/-- A sequence of client operations applied to the allocator state. -/
def run (fuel : Nat) (s : AllocState) : List Op → AllocState
  | [] => s
  | op :: ops => run fuel (step fuel s op) ops

/-- The allocator's state at program start: `HEAD = NULL`,
`next_fit_ptr = NULL`, an arena of size zero, all memory junk-free zeros. -/
def initState : AllocState :=
  { mem := fun _ => { size := 0, next := none }
    data := fun _ => 0
    head := none
    nextFit := none
    brk := 0 }

/-- The fit test `curr->size >= size` of the scan loop, as a Boolean
predicate on block addresses. -/
def fits (m : Mem) (size : Nat) (x : Nat) : Bool :=
  size ≤ (m x).size

/-- A state with one used 32-byte block at address 0 (payload at 16) and an
empty Free List. -/
def exC1 : AllocState :=
  { mem := fun a => if a = 0 then { size := 32, next := none } else { size := 0, next := none }
    data := fun _ => 0
    head := none
    nextFit := none
    brk := 48 }

/-- A state whose Free List is `[0, 48]` in list order — a 32-byte block at
address 0 followed by a 16-byte block at address 48 — with the next-fit
cursor parked on the 16-byte block at 48. -/
def exC2 : AllocState :=
  { mem := fun a =>
      if a = 0 then { size := 32, next := some 48 }
      else if a = 48 then { size := 16, next := none }
      else { size := 0, next := none }
    data := fun _ => 0
    head := some 0
    nextFit := some 48
    brk := 80 }

/-- A state whose Free List is the single block `[0]` of 16 payload bytes,
with the cursor unset. -/
def exC2b : AllocState :=
  { mem := fun a => if a = 0 then { size := 16, next := none } else { size := 0, next := none }
    data := fun _ => 0
    head := some 0
    nextFit := none
    brk := 32 }

/-- A state whose Free List is the single oversized block `[0]` of 64
payload bytes, with the cursor unset. -/
def exC4 : AllocState :=
  { mem := fun a => if a = 0 then { size := 64, next := none } else { size := 0, next := none }
    data := fun _ => 0
    head := some 0
    nextFit := none
    brk := 80 }

/-- A header store holding one free block at address 0 with 64 payload
bytes. -/
def exC3mem : Mem :=
  fun a => if a = 0 then { size := 64, next := none } else { size := 0, next := none }

/-- A state with a used block at address 0 holding 32 payload bytes (payload
pointer 16) and an empty Free List. -/
def exC6 : AllocState :=
  { mem := fun a => if a = 0 then { size := 32, next := none } else { size := 0, next := none }
    data := fun _ => 0
    head := some 0
    nextFit := none
    brk := 48 }

/-- A state whose Free List is the single 16-byte block at address 0, whose
byte range `[0, 32)` ends exactly at the current break: any fresh OS grant
is address-adjacent to it. -/
def exC7 : AllocState :=
  { mem := fun a => if a = 0 then { size := 16, next := none } else { size := 0, next := none }
    data := fun _ => 0
    head := some 0
    nextFit := none
    brk := 32 }

/-- A header store with free blocks at addresses 0 and 32 (16 payload bytes
each, so block 0 ends exactly where block 32 begins) whose list order is
`[32, 0]`: the head block 32 links to block 0. -/
def exC8mem : Mem :=
  fun a =>
    if a = 0 then { size := 16, next := none }
    else if a = 32 then { size := 16, next := some 0 }
    else { size := 0, next := none }

/-- The same two adjacent free blocks as `exC8mem` but in list order
`[0, 32]`: the head block 0 links to block 32. -/
def exC8memGood : Mem :=
  fun a =>
    if a = 0 then { size := 16, next := some 32 }
    else if a = 32 then { size := 16, next := none }
    else { size := 0, next := none }

theorem writeBlock_self (m : Mem) (a : Nat) (b : Block) : writeBlock m a b a = b := by
  simp [writeBlock]

theorem writeBlock_other (m : Mem) (a x : Nat) (b : Block) (h : x ≠ a) :
    writeBlock m a b x = m x := by
  simp [writeBlock, h]

theorem writeBlock_writeBlock (m : Mem) (a : Nat) (b1 b2 : Block) :
    writeBlock (writeBlock m a b1) a b2 = writeBlock m a b2 := by
  funext x
  by_cases h : x = a <;> simp [writeBlock, h]

/-- Claim C1: the source's release operation is an empty stub: `tufree` returns the
allocator state unchanged for every pointer, so releasing the used block
whose payload starts at address 16 leaves the Free List empty instead of
inserting one entry covering the block's range and coalescing it. -/
theorem C1_release_is_noop :
    (∀ (p : Option Nat) (s : AllocState), tufree p s = s) ∧
    freeListAux (tufree (some 16) exC1).mem (tufree (some 16) exC1).head 4 = some [] :=
  ⟨fun _ _ => rfl, rfl⟩

/-- Claim C10: `tucalloc` evaluates `SIZE_MAX / size` before any zero test on
`size`, so for every count, every OS behavior and every state, a call with
element size 0 reaches the division by zero (the `divByZero` outcome)
instead of delegating to `tumalloc` with a total size of 0. -/
theorem C10_calloc_zero_size_divides (fuel : Nat) (grant : Bool) (num : Nat)
    (s : AllocState) :
    tucalloc fuel grant num 0 s = some CallocRes.divByZero := by
  simp [tucalloc]

/-- Claim C5, counterexample: at count 1 and element size 0 the product `1 * 0 = 0`
does not overflow `SIZE_MAX`, so the claim demands delegation to allocate;
the code instead reaches the division by zero in the overflow guard. -/
theorem C5_counterexample :
    1 * 0 ≤ SIZE_MAX ∧ tucalloc 4 true 1 0 initState = some CallocRes.divByZero :=
  ⟨by decide, rfl⟩

theorem scanLoop_miss_none (size : Nat) (s : AllocState) (prev : Option Nat) (fuel : Nat) :
    scanLoop size s none prev fuel = some MallocStep.miss := by
  cases fuel <;> simp [scanLoop]

theorem scanLoop_find (size : Nat) (s : AllocState) :
    ∀ (fuel : Nat) (o prev : Option Nat) (l : List Nat),
      freeListAux s.mem o fuel = some l →
      ((∀ a, List.find? (fits s.mem size) l = some a →
          ∃ s2, scanLoop size s o prev fuel = some (MallocStep.hit (a + headerSize) s2)) ∧
       (List.find? (fits s.mem size) l = none →
          scanLoop size s o prev fuel = some MallocStep.miss)) := by
  intro fuel
  induction fuel with
  | zero =>
      intro o prev l h
      cases o with
      | none =>
          simp [freeListAux] at h
          subst h
          simp [List.find?, scanLoop_miss_none]
      | some a => simp [freeListAux] at h
  | succ n ih =>
      intro o prev l h
      cases o with
      | none =>
          simp [freeListAux] at h
          subst h
          simp [List.find?, scanLoop_miss_none]
      | some a =>
          cases htail : freeListAux s.mem (s.mem a).next n with
          | none => rw [freeListAux, htail] at h; exact absurd h (by simp)
          | some t =>
              rw [freeListAux, htail] at h
              have hl : l = a :: t := by
                have := h
                simpa using this.symm
              subst hl
              by_cases hfit : size ≤ (s.mem a).size
              · have hfb : fits s.mem size a = true := by
                  simp [fits, hfit]
                constructor
                · intro a0 hfind
                  rw [List.find?_cons_of_pos _ hfb] at hfind
                  have ha0 : a0 = a := by simpa using hfind.symm
                  subst ha0
                  rw [scanLoop]
                  simp only [if_pos hfit]
                  exact ⟨_, rfl⟩
                · intro hnone
                  rw [List.find?_cons_of_pos _ hfb] at hnone
                  exact absurd hnone (by simp)
              · have hfb : ¬ fits s.mem size a = true := by
                  simp [fits, hfit]
                have hrec := ih (s.mem a).next (some a) t htail
                have hsl : scanLoop size s (some a) prev (n + 1) =
                    scanLoop size s (s.mem a).next (some a) n := by
                  rw [scanLoop]
                  simp only [if_neg hfit]
                constructor
                · intro a0 hfind
                  rw [List.find?_cons_of_neg _ hfb] at hfind
                  obtain ⟨s2, hs2⟩ := hrec.1 a0 hfind
                  exact ⟨s2, by rw [hsl]; exact hs2⟩
                · intro hnone
                  rw [List.find?_cons_of_neg _ hfb] at hnone
                  rw [hsl]
                  exact hrec.2 hnone

theorem findPrevAux_adjacent (m : Mem) (block : Nat) :
    ∀ (fuel : Nat) (o : Option Nat) (p : Nat),
      findPrevAux m block o fuel = some (some p) →
      p + (m p).size + headerSize = block := by
  intro fuel
  induction fuel with
  | zero =>
      intro o p h
      cases o <;> simp [findPrevAux] at h
  | succ n ih =>
      intro o p h
      cases o with
      | none => simp [findPrevAux] at h
      | some curr =>
          simp only [findPrevAux] at h
          by_cases hc : curr + (m curr).size + headerSize = block
          · rw [if_pos hc] at h
            have : curr = p := by simpa using h
            subst this
            exact hc
          · rw [if_neg hc] at h
            exact ih _ _ h

theorem findNextAux_at_end (m : Mem) (e : Nat) :
    ∀ (fuel : Nat) (o : Option Nat) (nx : Nat),
      findNextAux m e o fuel = some (some nx) → nx = e := by
  intro fuel
  induction fuel with
  | zero =>
      intro o nx h
      cases o <;> simp [findNextAux] at h
  | succ n ih =>
      intro o nx h
      cases o with
      | none => simp [findNextAux] at h
      | some curr =>
          simp only [findNextAux] at h
          by_cases hc : curr = e
          · rw [if_pos hc] at h
            have : curr = nx := by simpa using h
            omega
          · rw [if_neg hc] at h
            exact ih _ _ h

theorem scanStart_none (s : AllocState) (h1 : s.head = none) (h2 : s.nextFit = none) :
    scanStart s = none := by
  simp [scanStart, h2, h1]

theorem step_preserves_empty (fuel : Nat) (s : AllocState) (h1 : s.head = none)
    (h2 : s.nextFit = none) (op : Op) :
    (step fuel s op).head = none ∧ (step fuel s op).nextFit = none := by
  cases op with
  | free p => exact ⟨h1, h2⟩
  | alloc g sz =>
      have hss : scanStart s = none := scanStart_none s h1 h2
      cases g <;> simp [step, tumalloc, hss, scanLoop_miss_none, h1, h2]

theorem run_preserves_empty (fuel : Nat) :
    ∀ (ops : List Op) (s : AllocState), s.head = none → s.nextFit = none →
      (run fuel s ops).head = none ∧ (run fuel s ops).nextFit = none := by
  intro ops
  induction ops with
  | nil => intro s h1 h2; exact ⟨h1, h2⟩
  | cons op ops ih =>
      intro s h1 h2
      have h := step_preserves_empty fuel s h1 h2 op
      simp only [run]
      exact ih _ h.1 h.2

/-- Claim C2, counterexample: in state `exC2` the Free List is `[0, 48]` and
the 32-payload-byte block at address 0 fits the aligned request 32, yet the
next-fit cursor sits on the later block 48, the scan does not wrap around,
and `tumalloc` extends the arena (the break grows from 80 to 128) instead of
returning block 0.  This refutes the claim that the arena is extended only
when no block anywhere in the Free List is large enough. -/
theorem C2_counterexample :
    freeListAux exC2.mem exC2.head 4 = some [0, 48] ∧
    align16 32 ≤ (exC2.mem 0).size ∧
    exC2.brk = 80 ∧
    (tumalloc 4 true 32 exC2).map (fun r => (r.1, r.2.brk)) = some (some 96, 128) := by
  decide

/-- Claim C2, amended: `tumalloc` scans the Free List starting from the
next-fit cursor (or the list head if the cursor is unset) following `next`
links only, without wrapping around; it returns the payload pointer of the
first block in that suffix whose size is at least the aligned request, and
it extends the arena via the OS exactly when no block in that suffix — not
the whole Free List — is large enough, leaving the list head unchanged. -/
theorem C2_scan_no_wraparound (fuel : Nat) (grant : Bool) (size0 : Nat) (s : AllocState)
    (l : List Nat) (hchain : freeListAux s.mem (scanStart s) fuel = some l) :
    (∀ a, List.find? (fits s.mem (align16 size0)) l = some a →
        (tumalloc fuel grant size0 s).map Prod.fst = some (some (a + headerSize))) ∧
    (List.find? (fits s.mem (align16 size0)) l = none →
        (tumalloc fuel grant size0 s).map (fun r => (r.1, r.2.head, r.2.brk)) =
          some (if grant then
              (some (s.brk + headerSize), s.head, s.brk + (align16 size0 + headerSize))
            else (none, s.head, s.brk))) := by
  have h := scanLoop_find (align16 size0) s fuel (scanStart s) none l hchain
  constructor
  · intro a hfind
    obtain ⟨s2, hs2⟩ := h.1 a hfind
    simp [tumalloc, hs2]
  · intro hnone
    have hm := h.2 hnone
    cases grant <;> simp [tumalloc, hm]

/-- Claim C2, witness: in state `exC2b` the scan finds the 16-byte block at
address 0 and returns its payload pointer 16. -/
theorem C2_witness :
    (tumalloc 4 true 16 exC2b).map Prod.fst = some (some 16) := by
  have h := C2_scan_no_wraparound 4 true 16 exC2b [0] (by decide)
  exact h.1 0 (by decide)

/-- Claim C3: `split` fails exactly when the block's size is below the
requested size plus the header size; on success it returns the original
block, now shrunk to exactly the requested size, and the brand-new free
block at the tail carries the original size minus the request minus the
header size, with its `next` inherited from the original block. -/
theorem C3_split_exact (m : Mem) (b R : Nat) :
    (split m b R = none ↔ (m b).size < R + headerSize) ∧
    (R + headerSize ≤ (m b).size →
       (split m b R).isSome ∧
       ∀ m1 r, split m b R = some (m1, r) → r = b ∧
         (m1 (b + R + headerSize)).size = (m b).size - R - headerSize ∧
         (m1 (b + R + headerSize)).next = (m b).next ∧
         (m1 b).size = R) := by
  have hhs : 0 < headerSize := by decide
  have hbt : ¬ (b + R + headerSize = b) := by omega
  constructor
  · constructor
    · intro h
      by_contra hlt
      simp [split, hlt] at h
    · intro h
      simp [split, h]
  · intro h
    have hlt : ¬ (m b).size < R + headerSize := Nat.not_lt.mpr h
    constructor
    · simp [split, hlt]
    · intro m1 r heq
      simp only [split, if_neg hlt, Option.some.injEq, Prod.mk.injEq] at heq
      obtain ⟨hm, hr⟩ := heq
      subst hm
      refine ⟨hr.symm, ?_, ?_, ?_⟩ <;> simp [writeBlock, hbt]

/-- Claim C3, witness: splitting the 64-byte free block at address 0 with a
16-byte request succeeds. -/
theorem C3_witness : (split exC3mem 0 16).isSome :=
  ((C3_split_exact exC3mem 0 16).2 (by decide)).1

/-- Claim C4: the remainder block that `split` creates inside `tumalloc` is
never linked into the Free List.  In state `exC4` the list is the single
64-byte block at 0; allocating 16 bytes splits it, the split writes a
32-byte remainder header at address 32, yet the resulting Free List is
empty — the remainder is unreachable, so its bytes belong to no listed
block, contradicting the claim that the leftover is a member of the list. -/
theorem C4_split_remainder_leaked :
    freeListAux exC4.mem exC4.head 4 = some [0] ∧
    align16 16 + headerSize < (exC4.mem 0).size ∧
    (tumalloc 4 true 16 exC4).map
        (fun r => (r.1, r.2.mem 32, freeListAux r.2.mem r.2.head 4)) =
      some (some 16, { size := 32, next := none }, some []) := by
  decide

/-- Claim C5, amended: for every element size strictly greater than zero,
`tucalloc` fails exactly when `count * size` exceeds `SIZE_MAX`, otherwise
it delegates to `tumalloc` with the product and zero-fills every payload
byte of a successful allocation.  (For element size zero the overflow guard
divides by zero; see the counterexample.) -/
theorem C5_calloc_correct_for_positive_size (fuel : Nat) (grant : Bool)
    (num size : Nat) (s : AllocState) (hsz : 0 < size) :
    (SIZE_MAX < num * size → tucalloc fuel grant num size s = some (CallocRes.ok none s)) ∧
    (num * size ≤ SIZE_MAX →
       tucalloc fuel grant num size s =
         match tumalloc fuel grant (num * size) s with
         | none => none
         | some (some ptr, s1) =>
             some (CallocRes.ok (some ptr)
               { s1 with data := memsetZero s1.data ptr (num * size) })
         | some (none, s1) => some (CallocRes.ok none s1)) ∧
    (∀ ptr s1, tucalloc fuel grant num size s = some (CallocRes.ok (some ptr) s1) →
       ∀ a, ptr ≤ a → a < ptr + num * size → s1.data a = 0) := by
  have hne : size ≠ 0 := Nat.pos_iff_ne_zero.mp hsz
  have hguard : (SIZE_MAX / size < num) ↔ (SIZE_MAX < num * size) :=
    Nat.div_lt_iff_lt_mul hsz
  refine ⟨?_, ?_, ?_⟩
  · intro hov
    simp only [tucalloc, if_neg hne, if_pos (hguard.mpr hov)]
  · intro hle
    have hng : ¬ SIZE_MAX / size < num := by rw [hguard]; omega
    simp only [tucalloc, if_neg hne, if_neg hng]
  · intro ptr s1 hres a ha1 ha2
    simp only [tucalloc, if_neg hne] at hres
    by_cases hov : SIZE_MAX / size < num
    · rw [if_pos hov] at hres
      simp at hres
    · rw [if_neg hov] at hres
      cases htm : tumalloc fuel grant (num * size) s with
      | none => rw [htm] at hres; simp at hres
      | some r =>
          obtain ⟨q, s0⟩ := r
          cases q with
          | none => rw [htm] at hres; simp at hres
          | some q0 =>
              rw [htm] at hres
              simp only [Option.some.injEq, CallocRes.ok.injEq] at hres
              obtain ⟨hq, hs⟩ := hres
              subst hs
              have hq0 : q0 = ptr := by simpa using hq
              subst hq0
              simp only [memsetZero]
              rw [if_pos ⟨ha1, ha2⟩]

/-- Claim C5, witness: `tucalloc` of one 16-byte element from the initial
state delegates to `tumalloc` and zero-fills. -/
theorem C5_witness :
    tucalloc 4 true 1 16 initState =
      match tumalloc 4 true (1 * 16) initState with
      | none => none
      | some (some ptr, s1) =>
          some (CallocRes.ok (some ptr)
            { s1 with data := memsetZero s1.data ptr (1 * 16) })
      | some (none, s1) => some (CallocRes.ok none s1) :=
  (C5_calloc_correct_for_positive_size 4 true 1 16 initState (by decide)).2.1 (by decide)

/-- Claim C6: when the block header behind a non-null pointer already covers
the requested size, `turealloc` returns the same pointer with the state
fully unchanged, and `turealloc` on a null pointer is exactly a plain
`tumalloc` of the requested size. -/
theorem C6_realloc_inplace_and_null_delegates (fuel : Nat) (grant : Bool)
    (p newSize : Nat) (s : AllocState)
    (hcover : newSize ≤ (s.mem (p - headerSize)).size) :
    turealloc fuel grant (some p) newSize s = some (some p, s) ∧
    turealloc fuel grant none newSize s = tumalloc fuel grant newSize s := by
  constructor
  · simp [turealloc, hcover]
  · rfl

/-- Claim C6, witness: shrinking the 32-byte block whose payload starts at
16 to 8 bytes returns the same pointer unchanged. -/
theorem C6_witness :
    turealloc 4 true (some 16) 8 exC6 = some (some 16, exC6) ∧
    turealloc 4 true none 8 exC6 = tumalloc 4 true 8 exC6 :=
  C6_realloc_inplace_and_null_delegates 4 true 16 8 exC6 (by decide)

/-- Claim C7, counterexample: in state `exC7` the single free block at 0
ends exactly at the break, so a fresh grant is address-adjacent to it; after
the miss the code hands out the new block at 32 but the list head is still
the old block 0 (the new block was never linked at the head) and block 0 is
unmerged (its size is still 16): the Coalescer never ran.  This refutes the
claim that the extension path links the block at the Free List head and
immediately runs the Coalescer. -/
theorem C7_counterexample :
    0 + (exC7.mem 0).size + headerSize = exC7.brk ∧
    freeListAux exC7.mem exC7.head 4 = some [0] ∧
    (tumalloc 4 true 32 exC7).map
        (fun r => (r.1, r.2.head, r.2.mem 0, r.2.mem 32)) =
      some (some 48, some 0, { size := 16, next := none }, { size := 32, next := some 0 }) := by
  decide

/-- Claim C7, amended: when the scan misses and the OS grant succeeds,
`tumalloc` initializes the new block header at the old break with the
aligned size and a `next` field aimed at the current list head, but it does
not link the block into the Free List (the head is unchanged) and does not
run the Coalescer; the next-fit cursor is reset to unset, so the next search
starts at the list head.  (The helper `do_alloc`, which does link and
coalesce, is never called by `tumalloc`.) -/
theorem C7_extend_does_not_link_or_coalesce (fuel : Nat) (size0 : Nat) (s : AllocState)
    (l : List Nat) (hchain : freeListAux s.mem (scanStart s) fuel = some l)
    (hmiss : ∀ a ∈ l, (s.mem a).size < align16 size0) :
    tumalloc fuel true size0 s =
      some (some (s.brk + headerSize),
        { s with
            mem := writeBlock s.mem s.brk { size := align16 size0, next := s.head },
            nextFit := none,
            brk := s.brk + (align16 size0 + headerSize) }) := by
  have hnone : List.find? (fits s.mem (align16 size0)) l = none := by
    rw [List.find?_eq_none]
    intro x hx
    simp only [fits, decide_eq_true_eq]
    exact Nat.not_le.mpr (hmiss x hx)
  have hm := (scanLoop_find (align16 size0) s fuel (scanStart s) none l hchain).2 hnone
  simp [tumalloc, hm]

/-- Claim C7, witness: allocating 16 bytes from the initial (empty) state
extends the arena without touching the (empty) Free List. -/
theorem C7_witness :
    tumalloc 4 true 16 initState =
      some (some (initState.brk + headerSize),
        { initState with
            mem := writeBlock initState.mem initState.brk
              { size := align16 16, next := initState.head },
            nextFit := none,
            brk := initState.brk + (align16 16 + headerSize) }) :=
  C7_extend_does_not_link_or_coalesce 4 16 initState [] (by decide) (by simp)

/-- Claim C8, counterexample: in header store `exC8mem` the free list in
list order is `[32, 0]` and block 0 is the address-adjacent predecessor of
block 32.  `coalesce` of block 32 absorbs it into block 0 (whose size
becomes 48 = 16 + 16 + 16), but because the predecessor's `next` did not
point at the candidate, block 32 is not spliced out: the free list
afterwards is still `[32, 0]`, with the absorbed block's header now lying
inside block 0's payload.  This refutes the claim that the absorbed block is
spliced out of the list. -/
theorem C8_counterexample :
    freeListAux exC8mem (some 32) 4 = some [32, 0] ∧
    0 + (exC8mem 0).size + headerSize = 32 ∧
    (coalesce 4 exC8mem (some 32) (some 32)).map
        (fun r => (r.2, r.1 0, r.1 32, freeListAux r.1 (some 32) 4)) =
      some (some 0, { size := 48, next := none }, { size := 16, next := some 0 },
        some [32, 0]) := by
  decide

/-- Claim C8, amended: `coalesce(NULL)` is a no-op returning `NULL`; when
the Neighbor Locator finds a predecessor (which is then always
address-adjacent), the candidate is absorbed into it — the predecessor's
size grows by the candidate's size plus the header size — but the candidate
is spliced out of the list only when the predecessor's `next` pointed at it,
otherwise its stale link is left in place; when a successor is also found it
is absorbed into the merged block, which unconditionally takes over the
successor's `next`. -/
theorem C8_coalesce_conditional_splice (fuel : Nat) (m : Mem) (head : Option Nat)
    (b p : Nat) (hp : find_prev fuel m head b = some (some p)) :
    coalesce fuel m head none = some (m, none) ∧
    (find_next fuel m head b = some none →
       coalesce fuel m head (some b) =
         some (writeBlock m p
             { size := (m p).size + ((m b).size + headerSize),
               next := if (m p).next = some b then (m b).next else (m p).next },
           some p)) ∧
    (∀ nx, find_next fuel m head b = some (some nx) →
       coalesce fuel m head (some b) =
         some (writeBlock m p
             { size := ((m p).size + ((m b).size + headerSize)) + ((m nx).size + headerSize),
               next := (m nx).next },
           some p)) := by
  have hhs : 0 < headerSize := by decide
  have hadj : p + (m p).size + headerSize = b := findPrevAux_adjacent m b fuel head p hp
  refine ⟨rfl, ?_, ?_⟩
  · intro hn
    simp only [coalesce, hp, hn, if_pos hadj]
    by_cases hpn : (m p).next = some b
    · simp [writeBlock_self, hpn, writeBlock_writeBlock]
    · simp [writeBlock_self, hpn]
  · intro nx hn
    have hnx : nx = b + (m b).size + headerSize := findNextAux_at_end m _ fuel head nx hn
    have hnxp : ¬ (nx = p) := by omega
    simp only [coalesce, hp, hn, if_pos hadj]
    by_cases hpn : (m p).next = some b
    · simp only [writeBlock_self, hpn, eq_self_iff_true, if_true, writeBlock_writeBlock]
      rw [if_pos (by omega)]
      simp [writeBlock_self, writeBlock_writeBlock, writeBlock_other _ _ _ _ hnxp]
    · simp only [writeBlock_self, hpn, if_false, if_neg hpn]
      rw [if_pos (by omega)]
      simp [writeBlock_self, writeBlock_writeBlock, writeBlock_other _ _ _ _ hnxp]

/-- Claim C8, witness: with list order `[0, 32]` the predecessor's `next`
does point at the candidate, so absorbing block 32 into block 0 also
splices it out. -/
theorem C8_witness :
    coalesce 4 exC8memGood (some 0) (some 32) =
      some (writeBlock exC8memGood 0
          { size := (exC8memGood 0).size + ((exC8memGood 32).size + headerSize),
            next := if (exC8memGood 0).next = some 32 then (exC8memGood 32).next
              else (exC8memGood 0).next },
        some 0) :=
  (C8_coalesce_conditional_splice 4 exC8memGood (some 0) 32 0 (by decide)).2.1 (by decide)

/-- Claim C9: after every sequence of allocate and release operations
starting from the empty allocator, no two blocks in the Free List are
address-adjacent.  (The property holds degenerately: release is a stub and
the extension path never links blocks, so the Free List stays empty in every
reachable state.) -/
theorem C9_no_two_adjacent_free_blocks (fuel : Nat) (ops : List Op) :
    ∃ l, freeListAux (run fuel initState ops).mem (run fuel initState ops).head fuel
          = some l ∧
      l.Pairwise (fun a b =>
        a + ((run fuel initState ops).mem a).size + headerSize ≠ b ∧
        b + ((run fuel initState ops).mem b).size + headerSize ≠ a) := by
  have h := run_preserves_empty fuel ops initState rfl rfl
  refine ⟨[], ?_, List.Pairwise.nil⟩
  rw [h.1]
  cases fuel <;> simp [freeListAux]
